import Mathlib

/-!
Verification of the PyVault password-generation engine
(`src/utils/password_generator.py`) against its specification.

The Python module is shallowly embedded below.  Randomness
(`secrets.choice`, `secrets.randbelow`) is modelled by explicit streams of
natural numbers: a single attempt consumes a stream `s : Nat → Nat`
(`s k % poolSize` plays the role of a uniform draw), and the generation
loop receives one stream per attempt (`Nat → Nat → Nat`).  A Python
exception (for example `secrets.choice` on an empty sequence, which raises
`IndexError`) is modelled by `Option`: `none` means the call raised.
Python `float` values are modelled by real numbers.
-/

/-- Enum `PasswordStrength` with its source ordinal values. -/
inductive PasswordStrength where
  | VERY_WEAK
  | WEAK
  | FAIR
  | GOOD
  | STRONG
  | EXCELLENT
deriving DecidableEq, Repr

/-- Numeric value of each strength level, as in the Python enum (0..5). -/
def strength_value : PasswordStrength → Nat
  | .VERY_WEAK => 0
  | .WEAK => 1
  | .FAIR => 2
  | .GOOD => 3
  | .STRONG => 4
  | .EXCELLENT => 5

/-- Dataclass `PasswordConfig`, with the source's default field values.
Counts are natural numbers; `max_* = none` means "no maximum".
Character strings are lists of characters. -/
structure PasswordConfig where
  length : Nat := 16
  min_length : Nat := 4
  max_length : Nat := 128
  use_uppercase : Bool := true
  use_lowercase : Bool := true
  use_numbers : Bool := true
  use_special : Bool := true
  min_uppercase : Nat := 0
  min_lowercase : Nat := 0
  min_numbers : Nat := 0
  min_special : Nat := 0
  max_uppercase : Option Nat := none
  max_lowercase : Option Nat := none
  max_numbers : Option Nat := none
  max_special : Option Nat := none
  exclude_ambiguous : Bool := false
  exclude_similar : Bool := false
  custom_excluded : List Char := []
  special_chars : List Char := "!@#$%^&*()_+-=[]\x7b\x7d|;:,.<>?".toList
deriving DecidableEq, Repr

/-- Per-class character counts (the dict built by
`_get_character_distribution`; all five keys start at 0). -/
structure CharacterDistribution where
  uppercase : Nat := 0
  lowercase : Nat := 0
  numbers : Nat := 0
  special : Nat := 0
  other : Nat := 0
deriving DecidableEq, Repr

/-- Class constant `PasswordGenerator.UPPERCASE`. -/
def UPPERCASE : List Char := "ABCDEFGHIJKLMNOPQRSTUVWXYZ".toList

/-- Class constant `PasswordGenerator.LOWERCASE`. -/
def LOWERCASE : List Char := "abcdefghijklmnopqrstuvwxyz".toList

/-- Class constant `PasswordGenerator.NUMBERS`. -/
def NUMBERS : List Char := "0123456789".toList

/-- Class constant `PasswordGenerator.AMBIGUOUS`. -/
def AMBIGUOUS : List Char := "0OoIl1".toList

/-- Class constant `PasswordGenerator.SIMILAR_GROUPS`. -/
def SIMILAR_GROUPS : List (List Char) :=
  ["il1|".toList, "O0o".toList, "5S$".toList, "G6".toList,
   "8B".toList, "2Z".toList, "vw".toList, "mn".toList]

/-- One iteration of the `for group in self.SIMILAR_GROUPS` loop body in
`_get_filtered_chars`: if any member of the group occurs in the working
string, remove all members and append the first member (in group order)
that occurred. -/
def collapse_similar_group (g : List Char) (f : List Char) : List Char :=
  if g.any (fun c => decide (c ∈ f)) then
    match g.find? (fun c => decide (c ∈ f)) with
    | some fc => (f.filter (fun c => decide (c ∉ g))) ++ [fc]
    | none => f
  else f

/-- Method `_get_filtered_chars`: ambiguous-character removal, then
similar-group collapsing, then removal of custom excluded characters
(the Python `if self.config.custom_excluded:` truthiness test is the
emptiness test on the excluded string). -/
def get_filtered_chars (cfg : PasswordConfig) (chars : List Char) : List Char :=
  let f1 := if cfg.exclude_ambiguous then
      chars.filter (fun c => decide (c ∉ AMBIGUOUS)) else chars
  let f2 := if cfg.exclude_similar then
      SIMILAR_GROUPS.foldl (fun f g => collapse_similar_group g f) f1 else f1
  if cfg.custom_excluded.isEmpty then f2
  else f2.filter (fun c => decide (c ∉ cfg.custom_excluded))

/-- Method `_get_available_character_sets`: the per-class filtered pools
in dict insertion order (uppercase, lowercase, numbers, special), with
empty pools removed. -/
def get_available_character_sets (cfg : PasswordConfig) : List (List Char) :=
  ((if cfg.use_uppercase then [get_filtered_chars cfg UPPERCASE] else []) ++
   (if cfg.use_lowercase then [get_filtered_chars cfg LOWERCASE] else []) ++
   (if cfg.use_numbers then [get_filtered_chars cfg NUMBERS] else []) ++
   (if cfg.use_special then [get_filtered_chars cfg cfg.special_chars] else [])).filter
    (fun l => decide (l ≠ []))

/-- Method `_get_character_distribution`: classify each character by the
first matching class (uppercase, lowercase, numbers, configured special
set, other). -/
def get_character_distribution (cfg : PasswordConfig) (pw : List Char) :
    CharacterDistribution :=
  pw.foldl
    (fun d c =>
      if c ∈ UPPERCASE then { d with uppercase := d.uppercase + 1 }
      else if c ∈ LOWERCASE then { d with lowercase := d.lowercase + 1 }
      else if c ∈ NUMBERS then { d with numbers := d.numbers + 1 }
      else if c ∈ cfg.special_chars then { d with special := d.special + 1 }
      else { d with other := d.other + 1 })
    {}

/-- Helper for the maximum-count checks of `_satisfies_constraints`:
`true` when a maximum is set and the count exceeds it. -/
def exceeds_max (count : Nat) (mx : Option Nat) : Bool :=
  match mx with
  | some m => decide (m < count)
  | none => false

/-- Method `_satisfies_constraints`: the chain of early `return False`
checks (four minimum checks guarded by `min > 0`, then four maximum
checks guarded by `max is not None`), ending in `return True`. -/
def satisfies_constraints (cfg : PasswordConfig) (pw : List Char) : Bool :=
  let d := get_character_distribution cfg pw
  if 0 < cfg.min_uppercase ∧ d.uppercase < cfg.min_uppercase then false
  else if 0 < cfg.min_lowercase ∧ d.lowercase < cfg.min_lowercase then false
  else if 0 < cfg.min_numbers ∧ d.numbers < cfg.min_numbers then false
  else if 0 < cfg.min_special ∧ d.special < cfg.min_special then false
  else if exceeds_max d.uppercase cfg.max_uppercase then false
  else if exceeds_max d.lowercase cfg.max_lowercase then false
  else if exceeds_max d.numbers cfg.max_numbers then false
  else if exceeds_max d.special cfg.max_special then false
  else true

/-- Number of enabled character classes (`enabled_types` in
`_validate_constraints`). -/
def enabled_types_count (cfg : PasswordConfig) : Nat :=
  (if cfg.use_uppercase then 1 else 0) + (if cfg.use_lowercase then 1 else 0) +
  (if cfg.use_numbers then 1 else 0) + (if cfg.use_special then 1 else 0)

/-- Sum of the enabled classes' minimum counts (`min_required` in
`_validate_constraints`; disabled classes contribute 0 there). -/
def min_required_enabled (cfg : PasswordConfig) : Nat :=
  (if cfg.use_uppercase then cfg.min_uppercase else 0) +
  (if cfg.use_lowercase then cfg.min_lowercase else 0) +
  (if cfg.use_numbers then cfg.min_numbers else 0) +
  (if cfg.use_special then cfg.min_special else 0)

/-- Inner helper `check_min_max` of `_validate_constraints`: a warning
(not a failure) when a set maximum is below the minimum. -/
def check_min_max (minV : Nat) (maxV : Option Nat) (nm : String) : List String :=
  match maxV with
  | some m =>
      if m < minV then [s!"Minimum {nm} ({minV}) exceeds maximum {nm} ({m})"]
      else []
  | none => []

/-- Method `_validate_constraints`: returns `(ok, warnings)`.  It fails
only for zero enabled classes or an enabled minimum sum exceeding the
length; empty filtered pools and min/max conflicts produce warnings. -/
def validate_constraints (cfg : PasswordConfig) : Bool × List String :=
  if enabled_types_count cfg = 0 then
    (false, ["At least one character type must be enabled"])
  else
    let minRequired := min_required_enabled cfg
    let L := cfg.length
    if L < minRequired then
      (false, [s!"Minimum requirements ({minRequired}) exceed password length ({L})"])
    else
      let w1 := if cfg.use_uppercase ∧ get_filtered_chars cfg UPPERCASE = [] then
          ["No uppercase characters available after filtering"] else []
      let w2 := if cfg.use_lowercase ∧ get_filtered_chars cfg LOWERCASE = [] then
          ["No lowercase characters available after filtering"] else []
      let w3 := if cfg.use_numbers ∧ get_filtered_chars cfg NUMBERS = [] then
          ["No numbers available after filtering"] else []
      let w4 := if cfg.use_special ∧ get_filtered_chars cfg cfg.special_chars = [] then
          ["No special characters available after filtering"] else []
      (true,
        w1 ++ w2 ++ w3 ++ w4 ++
        check_min_max cfg.min_uppercase cfg.max_uppercase "uppercase" ++
        check_min_max cfg.min_lowercase cfg.max_lowercase "lowercase" ++
        check_min_max cfg.min_numbers cfg.max_numbers "numbers" ++
        check_min_max cfg.min_special cfg.max_special "special")

/-- Method `_validate_config`, called by `__init__` and `update_config`:
if no class is enabled it sets `use_lowercase = True` on the (shared,
mutable) config; the returned value is the config the caller ends up
holding. -/
def validate_config (cfg : PasswordConfig) : PasswordConfig :=
  if cfg.use_uppercase || cfg.use_lowercase || cfg.use_numbers || cfg.use_special
  then cfg
  else { cfg with use_lowercase := true }

/-- Method `update_config`: stores the new config and runs
`_validate_config` on it; the result is the caller's config after the
call (Python mutates it in place). -/
def update_config (cfg : PasswordConfig) : PasswordConfig :=
  validate_config cfg

/-- Draw `n` characters from `pool` using stream values
`s k, s (k+1), ...` (each draw models `secrets.choice(pool)`); `none`
models the `IndexError` raised by `secrets.choice` on an empty pool. -/
def draw_chars (s : Nat → Nat) (k : Nat) (pool : List Char) : Nat → Option (List Char)
  | 0 => some []
  | n + 1 =>
      match pool[s k % pool.length]? with
      | some c => (draw_chars s (k + 1) pool n).map (fun l => c :: l)
      | none => none

/-- Swap the elements at positions `i` and `j` (the loop body of the
shuffle in `_generate_password_attempt`). -/
def swap_at (l : List Char) (i j : Nat) : List Char :=
  match l[i]?, l[j]? with
  | some a, some b => (l.set i b).set j a
  | _, _ => l

/-- The shuffle loop: for `i` in `0..n-1`, swap position `i` with
position `s k % length` (modelling `secrets.randbelow(len)`). -/
def shuffle_go (s : Nat → Nat) (k : Nat) (i : Nat) (l : List Char) : Nat → List Char
  | 0 => l
  | n + 1 => shuffle_go s (k + 1) (i + 1) (swap_at l i (s k % l.length)) n

/-- The full shuffle of `_generate_password_attempt` (one pass of
index-by-index swaps with fresh random targets). -/
def shuffle_chars (s : Nat → Nat) (k : Nat) (l : List Char) : List Char :=
  shuffle_go s k 0 l l.length

/-- Number of characters drawn for one class in the minimum-requirement
phase of `_generate_password_attempt`: `min_count` draws happen exactly
when the class is enabled and its minimum is positive (the
`if use_X and min_X > 0` guards). -/
def min_draw_count (use : Bool) (mn : Nat) : Nat :=
  if use ∧ 0 < mn then mn else 0

/-- Method `_generate_password_attempt`.  Empty available set short
circuits to the empty password; otherwise the per-class minimum draws
happen in source order (uppercase, lowercase, numbers, special), the
remainder is drawn from the filtered union of the available pools, the
assembled list is shuffled, and the result is trimmed to the configured
length.  `none` models an uncaught `IndexError` from `secrets.choice`
on an empty pool. -/
def generate_password_attempt (cfg : PasswordConfig) (s : Nat → Nat) :
    Option (List Char) :=
  let charSets := get_available_character_sets cfg
  if charSets.isEmpty then some []
  else
    let minRequired :=
      cfg.min_uppercase + cfg.min_lowercase + cfg.min_numbers + cfg.min_special
    let actualLength := max cfg.length minRequired
    let nU := min_draw_count cfg.use_uppercase cfg.min_uppercase
    let nL := min_draw_count cfg.use_lowercase cfg.min_lowercase
    let nN := min_draw_count cfg.use_numbers cfg.min_numbers
    let nS := min_draw_count cfg.use_special cfg.min_special
    (draw_chars s 0 (get_filtered_chars cfg UPPERCASE) nU).bind fun dU =>
    (draw_chars s nU (get_filtered_chars cfg LOWERCASE) nL).bind fun dL =>
    (draw_chars s (nU + nL) (get_filtered_chars cfg NUMBERS) nN).bind fun dN =>
    (draw_chars s (nU + nL + nN) (get_filtered_chars cfg cfg.special_chars) nS).bind fun dS =>
    let allChars := get_filtered_chars cfg charSets.flatten
    let drawn := nU + nL + nN + nS
    let remaining := actualLength - drawn
    (draw_chars s drawn allChars remaining).bind fun dR =>
    let assembled := dU ++ dL ++ dN ++ dS ++ dR
    let shuffled := shuffle_chars s (drawn + remaining) assembled
    some (if cfg.length < shuffled.length then shuffled.take cfg.length else shuffled)

/-- Method `_calculate_sequential_penalty`'s window count: each
3-character sliding window contributes 1 for a strictly ascending run of
consecutive code points and 1 for a strictly descending one. -/
def calculate_sequential_count : List Char → Nat
  | a :: b :: c :: rest =>
      (if b.toNat = a.toNat + 1 ∧ c.toNat = b.toNat + 1 then 1 else 0) +
      ((if b.toNat + 1 = a.toNat ∧ c.toNat + 1 = b.toNat then 1 else 0) +
        calculate_sequential_count (b :: c :: rest))
  | _ => 0

/-- Method `_calculate_sequential_penalty`: 0 for passwords shorter than
3, otherwise `min(0.5, count / (length - 2))`. -/
noncomputable def calculate_sequential_penalty (pw : List Char) : ℝ :=
  if pw.length < 3 then 0
  else if 0 < pw.length - 2 then
    min (0.5 : ℝ) ((calculate_sequential_count pw : ℝ) / ((pw.length - 2 : ℕ) : ℝ))
  else 0

/-- Method `_adjust_entropy_for_patterns`: repetition factor
(`distinct / length`, applied only when some character repeats), then the
sequential penalty factor, then the clamp to 0. -/
noncomputable def adjust_entropy_for_patterns (pw : List Char) (base : ℝ) : ℝ :=
  max 0
    ((if pw.dedup.length < pw.length then
        base * ((pw.dedup.length : ℝ) / (pw.length : ℝ))
      else base) *
      (1 - calculate_sequential_penalty pw))

/-- The entropy estimate of `_calculate_strength_and_entropy` as a
function of the password and the usable pool size:
`length * log2(size)` adjusted by `_adjust_entropy_for_patterns`. -/
noncomputable def score_entropy (pw : List Char) (charsetSize : Nat) : ℝ :=
  adjust_entropy_for_patterns pw ((pw.length : ℝ) * Real.logb 2 (charsetSize : ℝ))

/-- Method `_entropy_to_strength`: threshold chain at 25, 35, 50, 70, 90. -/
noncomputable def entropy_to_strength (e : ℝ) : PasswordStrength :=
  if e < 25 then .VERY_WEAK
  else if e < 35 then .WEAK
  else if e < 50 then .FAIR
  else if e < 70 then .GOOD
  else if e < 90 then .STRONG
  else .EXCELLENT

/-- Method `_calculate_strength_and_entropy`: early outs for the empty
password and an empty combined charset, otherwise score and classify. -/
noncomputable def calculate_strength_and_entropy (cfg : PasswordConfig)
    (pw : List Char) : PasswordStrength × ℝ :=
  if pw = [] then (.VERY_WEAK, 0)
  else
    let charsetSize := (get_available_character_sets cfg).flatten.length
    if charsetSize = 0 then (.VERY_WEAK, 0)
    else
      let entropy := score_entropy pw charsetSize
      (entropy_to_strength entropy, entropy)

/-- Dataclass `PasswordResult`. -/
structure PasswordResult where
  password : List Char
  strength : PasswordStrength
  entropy : ℝ
  satisfied_constraints : Bool
  warnings : List String := []
  character_distribution : CharacterDistribution := {}

/-- The result built on the success path of `generate_password`. -/
noncomputable def make_satisfied_result (cfg : PasswordConfig) (pw : List Char) :
    PasswordResult :=
  { password := pw
    strength := (calculate_strength_and_entropy cfg pw).1
    entropy := (calculate_strength_and_entropy cfg pw).2
    satisfied_constraints := true
    warnings := []
    character_distribution := get_character_distribution cfg pw }

/-- The best-effort result built after the attempt budget is exhausted. -/
noncomputable def make_degraded_result (cfg : PasswordConfig) (maxAttempts : Nat)
    (pw : List Char) : PasswordResult :=
  { password := pw
    strength := (calculate_strength_and_entropy cfg pw).1
    entropy := (calculate_strength_and_entropy cfg pw).2
    satisfied_constraints := false
    warnings := [s!"Could not satisfy all constraints after {maxAttempts} attempts"]
    character_distribution := get_character_distribution cfg pw }

/-- The attempt loop of `generate_password`: with fuel left, compose and
post-check a candidate; with the budget exhausted, compose one final
candidate and return it as a degraded result.  Attempt number `i` uses
stream `s i`. -/
noncomputable def generate_loop (cfg : PasswordConfig) (s : Nat → Nat → Nat)
    (maxAttempts : Nat) (i : Nat) : Nat → Option PasswordResult
  | 0 => (generate_password_attempt cfg (s i)).map (make_degraded_result cfg maxAttempts)
  | fuel + 1 =>
      (generate_password_attempt cfg (s i)).bind fun pw =>
        if satisfies_constraints cfg pw then some (make_satisfied_result cfg pw)
        else generate_loop cfg s maxAttempts (i + 1) fuel

/-- Method `generate_password`: pre-check, then the attempt loop; an
infeasible configuration returns the rejected result immediately. -/
noncomputable def generate_password (cfg : PasswordConfig) (s : Nat → Nat → Nat)
    (maxAttempts : Nat) : Option PasswordResult :=
  if (validate_constraints cfg).1 then generate_loop cfg s maxAttempts 0 maxAttempts
  else
    some
      { password := []
        strength := .VERY_WEAK
        entropy := 0
        satisfied_constraints := false
        warnings := (validate_constraints cfg).2
        character_distribution := {} }

/-- Modelled from the spec (claim C5's reading of the post-check): every
ENABLED class's count lies within `[min, max-or-infinity]`; disabled
classes impose nothing.  This is the spec-side predicate compared against
the source's `_satisfies_constraints`. -/
def spec_satisfies_enabled_only (cfg : PasswordConfig) (pw : List Char) : Bool :=
  let d := get_character_distribution cfg pw
  (!cfg.use_uppercase ||
    (decide (cfg.min_uppercase ≤ d.uppercase) && !exceeds_max d.uppercase cfg.max_uppercase)) &&
  (!cfg.use_lowercase ||
    (decide (cfg.min_lowercase ≤ d.lowercase) && !exceeds_max d.lowercase cfg.max_lowercase)) &&
  (!cfg.use_numbers ||
    (decide (cfg.min_numbers ≤ d.numbers) && !exceeds_max d.numbers cfg.max_numbers)) &&
  (!cfg.use_special ||
    (decide (cfg.min_special ≤ d.special) && !exceeds_max d.special cfg.max_special))

/-- Stream of zeros for a single attempt (every draw picks index 0). -/
def zero_stream : Nat → Nat := fun _ => 0

/-- Family of zero streams for the attempt loop. -/
def zero_streams : Nat → Nat → Nat := fun _ _ => 0

/-- The default configuration (`PasswordConfig()`). -/
def defaultConfig : PasswordConfig := {}

/-- Config whose uppercase minimum exceeds its uppercase maximum. -/
def cfgMinExceedsMax : PasswordConfig := { min_uppercase := 2, max_uppercase := some 1 }

/-- Config with uppercase enabled, `min_uppercase = 1`, and every
uppercase character custom-excluded: its uppercase pool filters to empty
while the pre-check still passes. -/
def cfgEmptyUppercaseMinPool : PasswordConfig :=
  { min_uppercase := 1, custom_excluded := UPPERCASE }

/-- Config whose only enabled class (lowercase) has its whole pool
custom-excluded: every available pool is empty, yet the pre-check
passes (with warnings). -/
def cfgAllPoolsEmpty : PasswordConfig :=
  { use_uppercase := false, use_numbers := false, use_special := false,
    custom_excluded := LOWERCASE }

/-- Config with no character class enabled. -/
def cfgNoneEnabled : PasswordConfig :=
  { use_uppercase := false, use_lowercase := false, use_numbers := false,
    use_special := false }

/-- Config with uppercase DISABLED but a positive uppercase minimum. -/
def cfgDisabledUppercaseMin : PasswordConfig :=
  { use_uppercase := false, min_uppercase := 1 }

/-- Config with only the similar-character filter active. -/
def cfgSimilarOnly : PasswordConfig := { exclude_similar := true }

/-- Helper: `exceeds_max` is false exactly when the count is within the
optional maximum. -/
theorem exceeds_max_false_iff (c : Nat) (mx : Option Nat) :
    exceeds_max c mx = false ↔ ∀ m, mx = some m → c ≤ m := by
  cases mx <;> simp [exceeds_max]

/-- Helper: `exceeds_max` is true exactly when a set maximum is
strictly exceeded. -/
theorem exceeds_max_true_iff (c : Nat) (mx : Option Nat) :
    exceeds_max c mx = true ↔ ∃ m, mx = some m ∧ m < c := by
  cases mx <;> simp [exceeds_max]

/-- Helper: the early-return chain of `_satisfies_constraints`, over
plain counters, as a single conjunction of interval constraints. -/
theorem satisfies_chain_iff (mnu mnl mnn mns du dl dn ds : Nat)
    (mxu mxl mxn mxs : Option Nat) :
    (if 0 < mnu ∧ du < mnu then false
     else if 0 < mnl ∧ dl < mnl then false
     else if 0 < mnn ∧ dn < mnn then false
     else if 0 < mns ∧ ds < mns then false
     else if exceeds_max du mxu then false
     else if exceeds_max dl mxl then false
     else if exceeds_max dn mxn then false
     else if exceeds_max ds mxs then false
     else true) = true ↔
      (mnu ≤ du ∧ mnl ≤ dl ∧ mnn ≤ dn ∧ mns ≤ ds ∧
       (∀ m, mxu = some m → du ≤ m) ∧ (∀ m, mxl = some m → dl ≤ m) ∧
       (∀ m, mxn = some m → dn ≤ m) ∧ (∀ m, mxs = some m → ds ≤ m)) := by
  split_ifs with h1 h2 h3 h4 h5 h6 h7 h8
  case _ => simp only [Bool.false_eq_true, false_iff]; intro hc; omega
  case _ => simp only [Bool.false_eq_true, false_iff]; intro hc; omega
  case _ => simp only [Bool.false_eq_true, false_iff]; intro hc; omega
  case _ => simp only [Bool.false_eq_true, false_iff]; intro hc; omega
  case _ =>
    simp only [Bool.false_eq_true, false_iff]; intro hc
    obtain ⟨m, hm, hlt⟩ := (exceeds_max_true_iff _ _).mp h5
    exact absurd (hc.2.2.2.2.1 m hm) (by omega)
  case _ =>
    simp only [Bool.false_eq_true, false_iff]; intro hc
    obtain ⟨m, hm, hlt⟩ := (exceeds_max_true_iff _ _).mp h6
    exact absurd (hc.2.2.2.2.2.1 m hm) (by omega)
  case _ =>
    simp only [Bool.false_eq_true, false_iff]; intro hc
    obtain ⟨m, hm, hlt⟩ := (exceeds_max_true_iff _ _).mp h7
    exact absurd (hc.2.2.2.2.2.2.1 m hm) (by omega)
  case _ =>
    simp only [Bool.false_eq_true, false_iff]; intro hc
    obtain ⟨m, hm, hlt⟩ := (exceeds_max_true_iff _ _).mp h8
    exact absurd (hc.2.2.2.2.2.2.2 m hm) (by omega)
  case _ =>
    simp only [true_iff]
    refine ⟨by omega, by omega, by omega, by omega, ?_, ?_, ?_, ?_⟩ <;>
      [exact (exceeds_max_false_iff _ _).mp (Bool.not_eq_true _ ▸ by simpa using h5);
       exact (exceeds_max_false_iff _ _).mp (Bool.not_eq_true _ ▸ by simpa using h6);
       exact (exceeds_max_false_iff _ _).mp (Bool.not_eq_true _ ▸ by simpa using h7);
       exact (exceeds_max_false_iff _ _).mp (Bool.not_eq_true _ ▸ by simpa using h8)]

/-- C2 counterexample: a config with `min_uppercase = 2 >
max_uppercase = 1` is still accepted by `_validate_constraints`
(`ok = true`); the conflict only lands in the warning list. -/
theorem c2_counterexample :
    cfgMinExceedsMax.max_uppercase = some 1 ∧ cfgMinExceedsMax.min_uppercase = 2 ∧
    (validate_constraints cfgMinExceedsMax).1 = true ∧
    "Minimum uppercase (2) exceeds maximum uppercase (1)" ∈
      (validate_constraints cfgMinExceedsMax).2 := by decide

/-- C2 (amended): the pre-check returns `ok = false` exactly when zero
classes are enabled or the enabled minimum sum exceeds the configured
length; a class minimum exceeding its set maximum never causes
rejection (it only contributes a warning). -/
theorem c2_amended_validate_false_iff (cfg : PasswordConfig) :
    (validate_constraints cfg).1 = false ↔
      (enabled_types_count cfg = 0 ∨ cfg.length < min_required_enabled cfg) := by
  simp only [validate_constraints]
  split_ifs with h1 h2 <;> simp_all

/-- C4 counterexample: `update_config` with a zero-classes-enabled
config mutates the caller's configuration, auto-enabling Lowercase. -/
theorem c4_counterexample :
    update_config cfgNoneEnabled ≠ cfgNoneEnabled ∧
    cfgNoneEnabled.use_lowercase = false ∧
    (update_config cfgNoneEnabled).use_lowercase = true := by decide

/-- C4 (amended): `update_config` (and the constructor, which runs the
same `_validate_config`) leaves every field unchanged except
`use_lowercase`, which it forces to `true` exactly when no class was
enabled. -/
theorem c4_amended_update_config_fields (cfg : PasswordConfig) :
    (update_config cfg).use_lowercase =
      (cfg.use_lowercase ||
        !(cfg.use_uppercase || cfg.use_lowercase || cfg.use_numbers || cfg.use_special)) ∧
    (update_config cfg).use_uppercase = cfg.use_uppercase ∧
    (update_config cfg).use_numbers = cfg.use_numbers ∧
    (update_config cfg).use_special = cfg.use_special ∧
    (update_config cfg).length = cfg.length ∧
    (update_config cfg).min_length = cfg.min_length ∧
    (update_config cfg).max_length = cfg.max_length ∧
    (update_config cfg).min_uppercase = cfg.min_uppercase ∧
    (update_config cfg).min_lowercase = cfg.min_lowercase ∧
    (update_config cfg).min_numbers = cfg.min_numbers ∧
    (update_config cfg).min_special = cfg.min_special ∧
    (update_config cfg).max_uppercase = cfg.max_uppercase ∧
    (update_config cfg).max_lowercase = cfg.max_lowercase ∧
    (update_config cfg).max_numbers = cfg.max_numbers ∧
    (update_config cfg).max_special = cfg.max_special ∧
    (update_config cfg).exclude_ambiguous = cfg.exclude_ambiguous ∧
    (update_config cfg).exclude_similar = cfg.exclude_similar ∧
    (update_config cfg).custom_excluded = cfg.custom_excluded ∧
    (update_config cfg).special_chars = cfg.special_chars := by
  unfold update_config validate_config
  cases h : (cfg.use_uppercase || cfg.use_lowercase || cfg.use_numbers || cfg.use_special) <;>
    simp_all

/-- C5 counterexample: with uppercase disabled but `min_uppercase = 1`,
the password "abc" satisfies every ENABLED class's bounds, yet the
source post-check returns false — disabled classes' minimums do
constrain the result. -/
theorem c5_counterexample :
    spec_satisfies_enabled_only cfgDisabledUppercaseMin "abc".toList = true ∧
    satisfies_constraints cfgDisabledUppercaseMin "abc".toList = false := by decide

/-- C5 (amended): the post-check returns true iff EVERY class — enabled
or not — has its count within `[min, max-or-infinity]`. -/
theorem c5_amended_satisfies_iff_all_classes (cfg : PasswordConfig) (pw : List Char) :
    satisfies_constraints cfg pw = true ↔
      (cfg.min_uppercase ≤ (get_character_distribution cfg pw).uppercase ∧
       cfg.min_lowercase ≤ (get_character_distribution cfg pw).lowercase ∧
       cfg.min_numbers ≤ (get_character_distribution cfg pw).numbers ∧
       cfg.min_special ≤ (get_character_distribution cfg pw).special ∧
       (∀ m, cfg.max_uppercase = some m → (get_character_distribution cfg pw).uppercase ≤ m) ∧
       (∀ m, cfg.max_lowercase = some m → (get_character_distribution cfg pw).lowercase ≤ m) ∧
       (∀ m, cfg.max_numbers = some m → (get_character_distribution cfg pw).numbers ≤ m) ∧
       (∀ m, cfg.max_special = some m → (get_character_distribution cfg pw).special ≤ m)) := by
  simp only [satisfies_constraints]
  exact satisfies_chain_iff _ _ _ _ _ _ _ _ _ _ _ _

/-- C6: for any configuration rejected by the pre-check,
`generate_password` immediately returns (for every stream family and
every attempt budget) the rejected result: empty password, VeryWeak,
entropy 0, `satisfied_constraints = false`, warnings carrying the
validation messages; no exception. -/
theorem c6_infeasible_rejected (cfg : PasswordConfig) (s : Nat → Nat → Nat)
    (maxAttempts : Nat) (h : (validate_constraints cfg).1 = false) :
    generate_password cfg s maxAttempts =
      some { password := [], strength := .VERY_WEAK, entropy := 0,
             satisfied_constraints := false,
             warnings := (validate_constraints cfg).2,
             character_distribution := {} } := by
  unfold generate_password
  rw [h]
  simp only [Bool.false_eq_true, if_false]

/-- Witness for C6 at a concrete infeasible config (no class enabled). -/
theorem c6_witness :
    (validate_constraints cfgNoneEnabled).1 = false ∧
    (validate_constraints cfgNoneEnabled).2 =
      ["At least one character type must be enabled"] ∧
    generate_password cfgNoneEnabled zero_streams 7 =
      some { password := [], strength := .VERY_WEAK, entropy := 0,
             satisfied_constraints := false,
             warnings := (validate_constraints cfgNoneEnabled).2,
             character_distribution := {} } :=
  ⟨by decide, by decide, c6_infeasible_rejected cfgNoneEnabled zero_streams 7 (by decide)⟩

/-- C10: `_entropy_to_strength` is total on the reals (every negative
entropy maps to VeryWeak) and monotone with respect to the strength
ordinals VeryWeak < Weak < Fair < Good < Strong < Excellent. -/
theorem c10_strength_total_monotone (e₁ e₂ : ℝ) (h : e₁ ≤ e₂) :
    (e₁ < 0 → entropy_to_strength e₁ = PasswordStrength.VERY_WEAK) ∧
    strength_value (entropy_to_strength e₁) ≤ strength_value (entropy_to_strength e₂) := by
  constructor
  · intro h0
    have h25 : e₁ < 25 := by linarith
    simp [entropy_to_strength, h25]
  · unfold entropy_to_strength
    split_ifs <;> simp only [strength_value] <;> first | omega | (exfalso; linarith)

/-- Witness for C10 at the concrete pair `-1 ≤ 0`. -/
theorem c10_witness :
    ((-1 : ℝ) ≤ 0) ∧
    (((-1 : ℝ) < 0 → entropy_to_strength (-1) = PasswordStrength.VERY_WEAK) ∧
      strength_value (entropy_to_strength (-1)) ≤ strength_value (entropy_to_strength 0)) :=
  ⟨by norm_num, c10_strength_total_monotone (-1) 0 (by norm_num)⟩

/-- Helper: drawing a positive number of characters from an empty pool
raises (models `secrets.choice` on an empty sequence). -/
theorem draw_chars_nil_pos (s : Nat → Nat) (k n : Nat) :
    draw_chars s k [] (n + 1) = none := by
  simp [draw_chars]

/-- Helper: drawing from a non-empty pool (or drawing nothing) succeeds
and yields exactly `n` characters. -/
theorem draw_chars_some (s : Nat → Nat) (k : Nat) (pool : List Char) (n : Nat)
    (h : pool ≠ [] ∨ n = 0) :
    ∃ l, draw_chars s k pool n = some l ∧ l.length = n := by
  induction n generalizing k with
  | zero => exact ⟨[], rfl, rfl⟩
  | succ n ih =>
    have hpool : pool ≠ [] := by
      rcases h with h | h
      · exact h
      · exact absurd h (Nat.succ_ne_zero n)
    have hpos : 0 < pool.length := List.length_pos.mpr hpool
    cases hg : pool[s k % pool.length]? with
    | none =>
      exfalso
      have := List.getElem?_eq_none_iff.mp hg
      have hlt := Nat.mod_lt (s k) hpos
      omega
    | some c =>
      obtain ⟨l, hl, hlen⟩ := ih (k + 1) (Or.inl hpool)
      exact ⟨c :: l, by simp [draw_chars, hg, hl], by simp [hlen]⟩

/-- Helper: a swap preserves the list length. -/
theorem swap_at_length (l : List Char) (i j : Nat) :
    (swap_at l i j).length = l.length := by
  unfold swap_at
  cases l[i]? <;> cases l[j]? <;> simp

/-- Helper: the shuffle loop preserves the list length. -/
theorem shuffle_go_length (s : Nat → Nat) :
    ∀ (n k i : Nat) (l : List Char), (shuffle_go s k i l n).length = l.length := by
  intro n
  induction n with
  | zero => intro k i l; rfl
  | succ n ih =>
      intro k i l
      simp only [shuffle_go]
      rw [ih, swap_at_length]

/-- Helper: the full shuffle preserves the list length. -/
theorem shuffle_chars_length (s : Nat → Nat) (k : Nat) (l : List Char) :
    (shuffle_chars s k l).length = l.length := shuffle_go_length s l.length k 0 l

/-- Helper: collapsing a similar group in an empty pool yields an empty
pool. -/
theorem collapse_similar_group_nil (g : List Char) :
    collapse_similar_group g [] = [] := by
  simp [collapse_similar_group]

/-- Helper: the similar-group pass keeps an empty pool empty. -/
theorem foldl_collapse_nil (gs : List (List Char)) :
    gs.foldl (fun f g => collapse_similar_group g f) [] = [] := by
  induction gs with
  | nil => rfl
  | cons g gs ih => simpa [collapse_similar_group_nil] using ih

/-- Helper: filtering the empty pool yields the empty pool. -/
theorem get_filtered_chars_nil (cfg : PasswordConfig) :
    get_filtered_chars cfg [] = [] := by
  unfold get_filtered_chars
  cases cfg.exclude_ambiguous <;> cases cfg.exclude_similar <;>
    simp [foldl_collapse_nil]

/-- Helper: the per-class minimum draw count never exceeds the class
minimum. -/
theorem min_draw_count_le (use : Bool) (mn : Nat) : min_draw_count use mn ≤ mn := by
  unfold min_draw_count; split <;> omega

/-- Helper: a positive minimum draw count means the class was enabled
with a positive minimum. -/
theorem min_draw_count_pos (use : Bool) (mn : Nat) (h : min_draw_count use mn ≠ 0) :
    use = true ∧ 0 < mn := by
  unfold min_draw_count at h
  by_cases hc : use = true ∧ 0 < mn
  · exact hc
  · rw [if_neg] at h
    · exact absurd rfl h
    · exact fun hc2 => hc ⟨hc2.1, hc2.2⟩

/-- Helper: when every enabled class with a positive minimum has a
non-empty filtered pool and the combined filtered pool is non-empty,
one composition attempt succeeds and produces exactly `config.length`
characters. -/
theorem generate_password_attempt_length (cfg : PasswordConfig) (s : Nat → Nat)
    (hU : cfg.use_uppercase = true → 0 < cfg.min_uppercase →
      get_filtered_chars cfg UPPERCASE ≠ [])
    (hL : cfg.use_lowercase = true → 0 < cfg.min_lowercase →
      get_filtered_chars cfg LOWERCASE ≠ [])
    (hN : cfg.use_numbers = true → 0 < cfg.min_numbers →
      get_filtered_chars cfg NUMBERS ≠ [])
    (hS : cfg.use_special = true → 0 < cfg.min_special →
      get_filtered_chars cfg cfg.special_chars ≠ [])
    (hAll : get_filtered_chars cfg (get_available_character_sets cfg).flatten ≠ []) :
    ∃ pw, generate_password_attempt cfg s = some pw ∧ pw.length = cfg.length := by
  have hcs : (get_available_character_sets cfg).isEmpty = false := by
    cases h : get_available_character_sets cfg with
    | nil =>
        exfalso
        apply hAll
        rw [h]
        exact get_filtered_chars_nil cfg
    | cons a t => rfl
  have hUor : get_filtered_chars cfg UPPERCASE ≠ [] ∨
      min_draw_count cfg.use_uppercase cfg.min_uppercase = 0 := by
    by_cases h0 : min_draw_count cfg.use_uppercase cfg.min_uppercase = 0
    · exact Or.inr h0
    · obtain ⟨h1, h2⟩ := min_draw_count_pos _ _ h0
      exact Or.inl (hU h1 h2)
  have hLor : get_filtered_chars cfg LOWERCASE ≠ [] ∨
      min_draw_count cfg.use_lowercase cfg.min_lowercase = 0 := by
    by_cases h0 : min_draw_count cfg.use_lowercase cfg.min_lowercase = 0
    · exact Or.inr h0
    · obtain ⟨h1, h2⟩ := min_draw_count_pos _ _ h0
      exact Or.inl (hL h1 h2)
  have hNor : get_filtered_chars cfg NUMBERS ≠ [] ∨
      min_draw_count cfg.use_numbers cfg.min_numbers = 0 := by
    by_cases h0 : min_draw_count cfg.use_numbers cfg.min_numbers = 0
    · exact Or.inr h0
    · obtain ⟨h1, h2⟩ := min_draw_count_pos _ _ h0
      exact Or.inl (hN h1 h2)
  have hSor : get_filtered_chars cfg cfg.special_chars ≠ [] ∨
      min_draw_count cfg.use_special cfg.min_special = 0 := by
    by_cases h0 : min_draw_count cfg.use_special cfg.min_special = 0
    · exact Or.inr h0
    · obtain ⟨h1, h2⟩ := min_draw_count_pos _ _ h0
      exact Or.inl (hS h1 h2)
  obtain ⟨dU, hdU, hlU⟩ := draw_chars_some s 0 (get_filtered_chars cfg UPPERCASE)
    (min_draw_count cfg.use_uppercase cfg.min_uppercase) hUor
  obtain ⟨dL, hdL, hlL⟩ := draw_chars_some s
    (min_draw_count cfg.use_uppercase cfg.min_uppercase)
    (get_filtered_chars cfg LOWERCASE)
    (min_draw_count cfg.use_lowercase cfg.min_lowercase) hLor
  obtain ⟨dN, hdN, hlN⟩ := draw_chars_some s
    (min_draw_count cfg.use_uppercase cfg.min_uppercase +
      min_draw_count cfg.use_lowercase cfg.min_lowercase)
    (get_filtered_chars cfg NUMBERS)
    (min_draw_count cfg.use_numbers cfg.min_numbers) hNor
  obtain ⟨dS, hdS, hlS⟩ := draw_chars_some s
    (min_draw_count cfg.use_uppercase cfg.min_uppercase +
      min_draw_count cfg.use_lowercase cfg.min_lowercase +
      min_draw_count cfg.use_numbers cfg.min_numbers)
    (get_filtered_chars cfg cfg.special_chars)
    (min_draw_count cfg.use_special cfg.min_special) hSor
  obtain ⟨dR, hdR, hlR⟩ := draw_chars_some s
    (min_draw_count cfg.use_uppercase cfg.min_uppercase +
      min_draw_count cfg.use_lowercase cfg.min_lowercase +
      min_draw_count cfg.use_numbers cfg.min_numbers +
      min_draw_count cfg.use_special cfg.min_special)
    (get_filtered_chars cfg (get_available_character_sets cfg).flatten)
    (max cfg.length
        (cfg.min_uppercase + cfg.min_lowercase + cfg.min_numbers + cfg.min_special) -
      (min_draw_count cfg.use_uppercase cfg.min_uppercase +
        min_draw_count cfg.use_lowercase cfg.min_lowercase +
        min_draw_count cfg.use_numbers cfg.min_numbers +
        min_draw_count cfg.use_special cfg.min_special))
    (Or.inl hAll)
  simp only [generate_password_attempt, hcs, Bool.false_eq_true, if_false,
    hdU, hdL, hdN, hdS, hdR, Option.some_bind]
  refine ⟨_, rfl, ?_⟩
  have hsum : min_draw_count cfg.use_uppercase cfg.min_uppercase +
      min_draw_count cfg.use_lowercase cfg.min_lowercase +
      min_draw_count cfg.use_numbers cfg.min_numbers +
      min_draw_count cfg.use_special cfg.min_special ≤
      cfg.min_uppercase + cfg.min_lowercase + cfg.min_numbers + cfg.min_special := by
    have := min_draw_count_le cfg.use_uppercase cfg.min_uppercase
    have := min_draw_count_le cfg.use_lowercase cfg.min_lowercase
    have := min_draw_count_le cfg.use_numbers cfg.min_numbers
    have := min_draw_count_le cfg.use_special cfg.min_special
    omega
  have hM1 : cfg.length ≤ max cfg.length
      (cfg.min_uppercase + cfg.min_lowercase + cfg.min_numbers + cfg.min_special) :=
    Nat.le_max_left _ _
  have hM2 : cfg.min_uppercase + cfg.min_lowercase + cfg.min_numbers + cfg.min_special ≤
      max cfg.length
        (cfg.min_uppercase + cfg.min_lowercase + cfg.min_numbers + cfg.min_special) :=
    Nat.le_max_right _ _
  split_ifs with htrim
  · rw [List.length_take]
    rw [shuffle_chars_length] at htrim ⊢
    simp only [List.length_append, hlU, hlL, hlN, hlS, hlR] at htrim ⊢
    omega
  · rw [shuffle_chars_length] at htrim ⊢
    simp only [List.length_append, hlU, hlL, hlN, hlS, hlR] at htrim ⊢
    omega

/-- Helper: under the pool hypotheses of
`generate_password_attempt_length`, every state of the attempt loop
returns a result whose password has exactly the configured length. -/
theorem generate_loop_length (cfg : PasswordConfig) (s : Nat → Nat → Nat)
    (maxAttempts : Nat)
    (hU : cfg.use_uppercase = true → 0 < cfg.min_uppercase →
      get_filtered_chars cfg UPPERCASE ≠ [])
    (hL : cfg.use_lowercase = true → 0 < cfg.min_lowercase →
      get_filtered_chars cfg LOWERCASE ≠ [])
    (hN : cfg.use_numbers = true → 0 < cfg.min_numbers →
      get_filtered_chars cfg NUMBERS ≠ [])
    (hS : cfg.use_special = true → 0 < cfg.min_special →
      get_filtered_chars cfg cfg.special_chars ≠ [])
    (hAll : get_filtered_chars cfg (get_available_character_sets cfg).flatten ≠ []) :
    ∀ (fuel i : Nat), ∃ r, generate_loop cfg s maxAttempts i fuel = some r ∧
      r.password.length = cfg.length := by
  intro fuel
  induction fuel with
  | zero =>
    intro i
    obtain ⟨pw, hpw, hlen⟩ :=
      generate_password_attempt_length cfg (s i) hU hL hN hS hAll
    refine ⟨make_degraded_result cfg maxAttempts pw, ?_, hlen⟩
    simp [generate_loop, hpw]
  | succ fuel ih =>
    intro i
    obtain ⟨pw, hpw, hlen⟩ :=
      generate_password_attempt_length cfg (s i) hU hL hN hS hAll
    cases hsat : satisfies_constraints cfg pw with
    | true =>
      refine ⟨make_satisfied_result cfg pw, ?_, hlen⟩
      simp [generate_loop, hpw, hsat]
    | false =>
      obtain ⟨r, hr, hrlen⟩ := ih (i + 1)
      refine ⟨r, ?_, hrlen⟩
      simp [generate_loop, hpw, hsat, hr]

/-- C3 counterexample: a configuration accepted by the pre-check whose
only enabled class filters to an empty pool makes `generate_password`
return an EMPTY password (length 0, not `config.length = 16`), and it
is even reported as satisfying the constraints. -/
theorem c3_counterexample :
    (validate_constraints cfgAllPoolsEmpty).1 = true ∧
    cfgAllPoolsEmpty.length = 16 ∧
    (generate_password cfgAllPoolsEmpty zero_streams 1).map
      (fun r => (r.password.length, r.satisfied_constraints)) = some (0, true) := by
  refine ⟨by decide, by decide, ?_⟩
  have hatt : generate_password_attempt cfgAllPoolsEmpty (zero_streams 0) = some [] := by
    decide
  have hsat : satisfies_constraints cfgAllPoolsEmpty [] = true := by decide
  unfold generate_password
  rw [show (validate_constraints cfgAllPoolsEmpty).1 = true from by decide]
  simp only [if_true]
  simp [generate_loop, hatt, hsat, make_satisfied_result]

/-- C3 (amended): for every configuration accepted by the pre-check in
which every enabled class with a positive minimum has a non-empty
filtered pool and the combined filtered pool is non-empty,
`generate_password` returns a result whose password has length exactly
`config.length`, in both the satisfied and the degraded terminal
states (for every stream family and attempt budget). -/
theorem c3_amended_generated_length (cfg : PasswordConfig) (s : Nat → Nat → Nat)
    (maxAttempts : Nat)
    (h0 : (validate_constraints cfg).1 = true)
    (hU : cfg.use_uppercase = true → 0 < cfg.min_uppercase →
      get_filtered_chars cfg UPPERCASE ≠ [])
    (hL : cfg.use_lowercase = true → 0 < cfg.min_lowercase →
      get_filtered_chars cfg LOWERCASE ≠ [])
    (hN : cfg.use_numbers = true → 0 < cfg.min_numbers →
      get_filtered_chars cfg NUMBERS ≠ [])
    (hS : cfg.use_special = true → 0 < cfg.min_special →
      get_filtered_chars cfg cfg.special_chars ≠ [])
    (hAll : get_filtered_chars cfg (get_available_character_sets cfg).flatten ≠ []) :
    ∃ r, generate_password cfg s maxAttempts = some r ∧
      r.password.length = cfg.length := by
  unfold generate_password
  rw [h0]
  simp only [if_true]
  exact generate_loop_length cfg s maxAttempts hU hL hN hS hAll maxAttempts 0

/-- Witness for C3's amended theorem at the default configuration. -/
theorem c3_witness :
    (validate_constraints defaultConfig).1 = true ∧
    get_filtered_chars defaultConfig
      (get_available_character_sets defaultConfig).flatten ≠ [] ∧
    ∃ r, generate_password defaultConfig zero_streams 3 = some r ∧
      r.password.length = defaultConfig.length :=
  ⟨by decide, by decide,
    c3_amended_generated_length defaultConfig zero_streams 3 (by decide)
      (by decide) (by decide) (by decide) (by decide) (by decide)⟩

/-- C1 (the code crashes where the spec forbids it): a configuration the
pre-check accepts — uppercase enabled with `min_uppercase = 1` but its
filtered pool empty (all uppercase letters custom-excluded) — makes
`generate_password` raise `IndexError` from `secrets.choice` on an
empty sequence (modelled as `none`), for every stream and budget,
instead of returning a warning-carrying result. -/
theorem c1_empty_min_pool_crash :
    (validate_constraints cfgEmptyUppercaseMinPool).1 = true ∧
    cfgEmptyUppercaseMinPool.use_uppercase = true ∧
    0 < cfgEmptyUppercaseMinPool.min_uppercase ∧
    get_filtered_chars cfgEmptyUppercaseMinPool UPPERCASE = [] ∧
    "No uppercase characters available after filtering" ∈
      (validate_constraints cfgEmptyUppercaseMinPool).2 ∧
    ∀ (s : Nat → Nat → Nat) (maxAttempts : Nat),
      generate_password cfgEmptyUppercaseMinPool s maxAttempts = none := by
  refine ⟨by decide, by decide, by decide, by decide, by decide, ?_⟩
  intro s maxAttempts
  have hatt : ∀ t : Nat → Nat,
      generate_password_attempt cfgEmptyUppercaseMinPool t = none := by
    intro t
    simp only [generate_password_attempt]
    rw [show (get_available_character_sets cfgEmptyUppercaseMinPool).isEmpty = false
      from by decide]
    rw [show get_filtered_chars cfgEmptyUppercaseMinPool UPPERCASE = [] from by decide]
    rw [show min_draw_count cfgEmptyUppercaseMinPool.use_uppercase
        cfgEmptyUppercaseMinPool.min_uppercase = 1 from by decide]
    simp [draw_chars_nil_pos]
  have hloop : ∀ (fuel i : Nat),
      generate_loop cfgEmptyUppercaseMinPool s maxAttempts i fuel = none := by
    intro fuel
    induction fuel with
    | zero => intro i; simp [generate_loop, hatt]
    | succ fuel ih => intro i; simp [generate_loop, hatt]
  unfold generate_password
  rw [show (validate_constraints cfgEmptyUppercaseMinPool).1 = true from by decide]
  simp only [if_true]
  exact hloop maxAttempts 0

/-- C9: with `max_attempts = 0` and a configuration the pre-check
accepts, the attempt loop is skipped entirely: `generate_password`
returns the one freshly composed candidate as a degraded result —
`satisfied_constraints = false` with the budget-exhausted warning —
regardless of whether that candidate satisfies every constraint. -/
theorem c9_zero_attempts_degraded (cfg : PasswordConfig) (s : Nat → Nat → Nat)
    (p : List Char)
    (h1 : (validate_constraints cfg).1 = true)
    (h2 : generate_password_attempt cfg (s 0) = some p) :
    generate_password cfg s 0 = some (make_degraded_result cfg 0 p) ∧
    (make_degraded_result cfg 0 p).password = p ∧
    (make_degraded_result cfg 0 p).satisfied_constraints = false ∧
    (make_degraded_result cfg 0 p).warnings =
      ["Could not satisfy all constraints after 0 attempts"] := by
  refine ⟨?_, rfl, rfl, ?_⟩
  · unfold generate_password
    rw [h1]
    simp only [if_true]
    simp [generate_loop, h2]
  · simp only [make_degraded_result]
    decide

/-- Witness for C9 at the default configuration with the zero stream:
the composed candidate (sixteen times the character at pool index 0)
does satisfy every constraint, yet the result is degraded. -/
theorem c9_witness :
    (validate_constraints defaultConfig).1 = true ∧
    generate_password_attempt defaultConfig (zero_streams 0) =
      some (List.replicate 16 'A') ∧
    satisfies_constraints defaultConfig (List.replicate 16 'A') = true ∧
    (generate_password defaultConfig zero_streams 0 =
        some (make_degraded_result defaultConfig 0 (List.replicate 16 'A')) ∧
      (make_degraded_result defaultConfig 0 (List.replicate 16 'A')).password =
        List.replicate 16 'A' ∧
      (make_degraded_result defaultConfig 0 (List.replicate 16 'A')).satisfied_constraints =
        false ∧
      (make_degraded_result defaultConfig 0 (List.replicate 16 'A')).warnings =
        ["Could not satisfy all constraints after 0 attempts"]) :=
  ⟨by decide, by decide, by decide,
    c9_zero_attempts_degraded defaultConfig zero_streams (List.replicate 16 'A')
      (by decide) (by decide)⟩

/-- Helper: `find?` over a group only depends on the membership of the
group's characters in the working pool. -/
theorem find_mem_congr (g f₁ f₂ : List Char)
    (h : ∀ c ∈ g, (c ∈ f₁ ↔ c ∈ f₂)) :
    g.find? (fun c => decide (c ∈ f₁)) = g.find? (fun c => decide (c ∈ f₂)) := by
  induction g with
  | nil => rfl
  | cons a t ih =>
    have hiff := h a (List.mem_cons_self a t)
    by_cases ha : a ∈ f₁
    · have ha2 : a ∈ f₂ := hiff.mp ha
      simp [List.find?, ha, ha2]
    · have ha2 : a ∉ f₂ := fun hx => ha (hiff.mpr hx)
      simp only [List.find?, decide_eq_true_eq, ha, ha2, decide_eq_false_iff_not,
        not_false_eq_true]
      simpa [List.find?, ha, ha2] using ih (fun c hc => h c (List.mem_cons_of_mem a hc))

/-- Helper: collapsing a group does not change the membership of
characters outside that group. -/
theorem mem_collapse_of_not_mem (g f : List Char) (c : Char) (hc : c ∉ g) :
    (c ∈ collapse_similar_group g f ↔ c ∈ f) := by
  unfold collapse_similar_group
  by_cases hany : g.any (fun x => decide (x ∈ f)) = true
  · rw [if_pos hany]
    cases hf : g.find? (fun x => decide (x ∈ f)) with
    | none => exact Iff.rfl
    | some fc =>
      have hfcg : fc ∈ g := List.mem_of_find?_eq_some hf
      have hcne : c ≠ fc := fun he => hc (he ▸ hfcg)
      simp [List.mem_append, List.mem_filter, hc, hcne]
  · rw [if_neg hany]

/-- Helper: for a character inside the group, membership after the
collapse is exactly being the group's chosen representative. -/
theorem mem_collapse_self (g f : List Char) (c : Char) (hc : c ∈ g) :
    (c ∈ collapse_similar_group g f ↔
      g.find? (fun x => decide (x ∈ f)) = some c) := by
  unfold collapse_similar_group
  by_cases hany : g.any (fun x => decide (x ∈ f)) = true
  · rw [if_pos hany]
    obtain ⟨x, hxg, hxf⟩ := List.any_eq_true.mp hany
    have hxf2 : x ∈ f := of_decide_eq_true hxf
    cases hf : g.find? (fun x => decide (x ∈ f)) with
    | none =>
      exfalso
      have := List.find?_eq_none.mp hf x hxg
      simp [hxf2] at this
    | some fc =>
      have hfcf : fc ∈ f := by simpa using List.find?_some hf
      have hfcg : fc ∈ g := List.mem_of_find?_eq_some hf
      constructor
      · intro hmem
        rcases List.mem_append.mp hmem with hm | hm
        · exact absurd (of_decide_eq_true (List.mem_filter.mp hm).2) (by simp [hc])
        · have hcfc : c = fc := by simpa using hm
          rw [hcfc]
      · intro hfind
        have hfcc : fc = c := Option.some.inj hfind
        subst hfcc
        exact List.mem_append.mpr (Or.inr (by simp))
  · rw [if_neg hany]
    have hnone : ∀ x ∈ g, x ∉ f := by
      intro x hx hxf
      exact hany (List.any_eq_true.mpr ⟨x, hx, by simpa using hxf⟩)
    constructor
    · intro hcf
      exact absurd hcf (hnone c hc)
    · intro hfind
      have : c ∈ f := by simpa using List.find?_some hfind
      exact absurd this (hnone c hc)

/-- Helper: the whole similar-group pass does not change the membership
of characters belonging to none of the processed groups. -/
theorem foldl_mem_of_not_mem_any (gs : List (List Char)) (f : List Char) (c : Char)
    (h : ∀ g ∈ gs, c ∉ g) :
    (c ∈ gs.foldl (fun f g => collapse_similar_group g f) f ↔ c ∈ f) := by
  induction gs generalizing f with
  | nil => exact Iff.rfl
  | cons g t ih =>
    simp only [List.foldl_cons]
    rw [ih _ (fun g2 hg2 => h g2 (List.mem_cons_of_mem g hg2))]
    exact mem_collapse_of_not_mem g f c (h g (List.mem_cons_self g t))

/-- Helper: over pairwise-disjoint groups, a character of group `g`
survives the whole pass exactly when it is `g`'s representative in the
initial pool. -/
theorem foldl_mem_self (g : List Char) (c : Char) (hc : c ∈ g) :
    ∀ (gs : List (List Char)) (f : List Char), g ∈ gs →
      List.Pairwise (fun g1 g2 => ∀ x ∈ g1, x ∉ g2) gs →
      (c ∈ gs.foldl (fun f g => collapse_similar_group g f) f ↔
        g.find? (fun x => decide (x ∈ f)) = some c) := by
  intro gs
  induction gs with
  | nil => intro f hg _; exact absurd hg (List.not_mem_nil g)
  | cons g1 t ih =>
    intro f hg hpw
    obtain ⟨hhead, htail⟩ := List.pairwise_cons.mp hpw
    simp only [List.foldl_cons]
    by_cases heq : g1 = g
    · subst heq
      have hnot : ∀ g2 ∈ t, c ∉ g2 := fun g2 hg2 => hhead g2 hg2 c hc
      rw [foldl_mem_of_not_mem_any t _ c hnot]
      exact mem_collapse_self g1 f c hc
    · have hgt : g ∈ t := by
        rcases List.mem_cons.mp hg with h | h
        · exact absurd h.symm heq
        · exact h
      rw [ih (collapse_similar_group g1 f) hgt htail]
      have hagree : ∀ x ∈ g, (x ∈ collapse_similar_group g1 f ↔ x ∈ f) := by
        intro x hx
        have hxnot : x ∉ g1 := fun hx1 => (hhead g hgt x hx1) hx
        exact mem_collapse_of_not_mem g1 f x hxnot
      rw [find_mem_congr g _ f hagree]

/-- Helper: if some member of a group is in the pool, the group has a
representative found by `find?`. -/
theorem exists_group_representative (g pool : List Char) (c0 : Char)
    (h1 : c0 ∈ g) (h2 : c0 ∈ pool) :
    ∃ fc, g.find? (fun x => decide (x ∈ pool)) = some fc := by
  induction g with
  | nil => cases h1
  | cons a t ih =>
    by_cases ha : a ∈ pool
    · exact ⟨a, by simp [List.find?, ha]⟩
    · rcases List.mem_cons.mp h1 with h | h
      · exact absurd (h ▸ h2) ha
      · obtain ⟨fc, hfc⟩ := ih h
        exact ⟨fc, by simp [List.find?, ha, hfc]⟩

/-- Helper: the concrete similar groups are pairwise disjoint. -/
theorem similar_groups_pairwise_disjoint :
    List.Pairwise (fun g1 g2 => ∀ x ∈ g1, x ∉ g2) SIMILAR_GROUPS := by decide

/-- C7: with `exclude_similar = true`, `exclude_ambiguous = false` and no
custom exclusions, `_get_filtered_chars` keeps characters outside every
confusable group exactly as in the input pool, and collapses each
confusable group intersecting the pool to exactly one representative
member of the group (one that occurs in the pool); groups not meeting
the pool contribute nothing. -/
theorem c7_similar_collapse (cfg : PasswordConfig)
    (hsim : cfg.exclude_similar = true)
    (hamb : cfg.exclude_ambiguous = false)
    (hcust : cfg.custom_excluded = [])
    (pool : List Char) :
    (∀ c : Char, (∀ g ∈ SIMILAR_GROUPS, c ∉ g) →
      (c ∈ get_filtered_chars cfg pool ↔ c ∈ pool)) ∧
    (∀ g ∈ SIMILAR_GROUPS,
      ((∃ c, c ∈ g ∧ c ∈ pool) →
        ∃ fc, fc ∈ g ∧ fc ∈ pool ∧
          ∀ c ∈ g, (c ∈ get_filtered_chars cfg pool ↔ c = fc)) ∧
      ((∀ c ∈ g, c ∉ pool) → ∀ c ∈ g, c ∉ get_filtered_chars cfg pool)) := by
  have hfold : get_filtered_chars cfg pool =
      SIMILAR_GROUPS.foldl (fun f g => collapse_similar_group g f) pool := by
    simp [get_filtered_chars, hsim, hamb, hcust]
  constructor
  · intro c hcg
    rw [hfold]
    exact foldl_mem_of_not_mem_any _ _ _ hcg
  · intro g hg
    constructor
    · rintro ⟨c0, hc0g, hc0p⟩
      obtain ⟨fc, hfc⟩ := exists_group_representative g pool c0 hc0g hc0p
      have hfcg : fc ∈ g := List.mem_of_find?_eq_some hfc
      have hfcp : fc ∈ pool := by simpa using List.find?_some hfc
      refine ⟨fc, hfcg, hfcp, ?_⟩
      intro c hcg2
      rw [hfold,
        foldl_mem_self g c hcg2 SIMILAR_GROUPS pool hg similar_groups_pairwise_disjoint,
        hfc]
      constructor
      · intro h
        exact (Option.some.inj h).symm
      · intro h
        rw [h]
    · intro hnone c hcg2
      rw [hfold,
        foldl_mem_self g c hcg2 SIMILAR_GROUPS pool hg similar_groups_pairwise_disjoint]
      intro hfind
      have : c ∈ pool := by simpa using List.find?_some hfind
      exact hnone c hcg2 this

/-- Witness for C7 at a concrete filter-only config and the pool
"Ol1x". -/
theorem c7_witness :
    cfgSimilarOnly.exclude_similar = true ∧
    cfgSimilarOnly.exclude_ambiguous = false ∧
    cfgSimilarOnly.custom_excluded = [] ∧
    ((∀ c : Char, (∀ g ∈ SIMILAR_GROUPS, c ∉ g) →
      (c ∈ get_filtered_chars cfgSimilarOnly ("Ol1x".toList) ↔ c ∈ "Ol1x".toList)) ∧
    (∀ g ∈ SIMILAR_GROUPS,
      ((∃ c, c ∈ g ∧ c ∈ "Ol1x".toList) →
        ∃ fc, fc ∈ g ∧ fc ∈ "Ol1x".toList ∧
          ∀ c ∈ g, (c ∈ get_filtered_chars cfgSimilarOnly ("Ol1x".toList) ↔ c = fc)) ∧
      ((∀ c ∈ g, c ∉ "Ol1x".toList) →
        ∀ c ∈ g, c ∉ get_filtered_chars cfgSimilarOnly ("Ol1x".toList)))) :=
  ⟨by decide, by decide, by decide,
    c7_similar_collapse cfgSimilarOnly (by decide) (by decide) (by decide) "Ol1x".toList⟩

/-- C8: for a non-empty password and positive usable pool size, the
entropy estimate equals
`max(0, length * log2(size) * (distinct/length) * (1 - min(0.5, runs/(length-2))))`
(with zero sequential penalty below length 3), and the penalty stages
can only shrink it: the estimate is at most the base estimate
`length * log2(size)` and never negative. -/
theorem c8_entropy_formula (pw : List Char) (size : Nat)
    (h1 : pw ≠ []) (h2 : 0 < size) :
    score_entropy pw size =
      max 0 (((pw.length : ℝ) * Real.logb 2 (size : ℝ)) *
        ((pw.dedup.length : ℝ) / (pw.length : ℝ)) *
        (1 - (if 3 ≤ pw.length then
            min (0.5 : ℝ)
              ((calculate_sequential_count pw : ℝ) / ((pw.length - 2 : ℕ) : ℝ))
          else 0))) ∧
    score_entropy pw size ≤ (pw.length : ℝ) * Real.logb 2 (size : ℝ) ∧
    0 ≤ score_entropy pw size := by
  have hlen : 0 < pw.length := List.length_pos.mpr h1
  have hlenR : (0 : ℝ) < (pw.length : ℝ) := by exact_mod_cast hlen
  have hd_le : pw.dedup.length ≤ pw.length := (List.dedup_sublist pw).length_le
  have hsize1 : (1 : ℝ) ≤ (size : ℝ) := by exact_mod_cast h2
  have hbase : (0 : ℝ) ≤ (pw.length : ℝ) * Real.logb 2 (size : ℝ) :=
    mul_nonneg (by positivity) (Real.logb_nonneg (by norm_num) hsize1)
  have hpen_eq : calculate_sequential_penalty pw =
      (if 3 ≤ pw.length then
        min (0.5 : ℝ)
          ((calculate_sequential_count pw : ℝ) / ((pw.length - 2 : ℕ) : ℝ))
      else 0) := by
    unfold calculate_sequential_penalty
    by_cases h3 : pw.length < 3
    · rw [if_pos h3, if_neg (by omega)]
    · rw [if_neg h3, if_pos (by omega), if_pos (by omega)]
  have hpen_nonneg : 0 ≤ calculate_sequential_penalty pw := by
    rw [hpen_eq]
    split_ifs with h3
    · exact le_min (by norm_num) (by positivity)
    · exact le_refl 0
  have hpen_le : calculate_sequential_penalty pw ≤ 0.5 := by
    rw [hpen_eq]
    split_ifs with h3
    · exact min_le_left _ _
    · norm_num
  have hfrac0 : (0 : ℝ) ≤ (pw.dedup.length : ℝ) / (pw.length : ℝ) := by positivity
  have hfrac1 : (pw.dedup.length : ℝ) / (pw.length : ℝ) ≤ 1 := by
    rw [div_le_one hlenR]
    exact_mod_cast hd_le
  have heq : score_entropy pw size =
      max 0 (((pw.length : ℝ) * Real.logb 2 (size : ℝ)) *
        ((pw.dedup.length : ℝ) / (pw.length : ℝ)) *
        (1 - calculate_sequential_penalty pw)) := by
    unfold score_entropy adjust_entropy_for_patterns
    by_cases hd : pw.dedup.length < pw.length
    · rw [if_pos hd]
    · rw [if_neg hd]
      have hdeq : pw.dedup.length = pw.length := le_antisymm hd_le (not_lt.mp hd)
      rw [hdeq, div_self (ne_of_gt hlenR), mul_one]
  refine ⟨by rw [heq, hpen_eq], ?_, by rw [heq]; exact le_max_left 0 _⟩
  rw [heq]
  have h1c : 1 - calculate_sequential_penalty pw ≤ 1 := by linarith
  have h1a : (0 : ℝ) ≤ ((pw.length : ℝ) * Real.logb 2 (size : ℝ)) *
      ((pw.dedup.length : ℝ) / (pw.length : ℝ)) := mul_nonneg hbase hfrac0
  have h1b : ((pw.length : ℝ) * Real.logb 2 (size : ℝ)) *
      ((pw.dedup.length : ℝ) / (pw.length : ℝ)) ≤
      (pw.length : ℝ) * Real.logb 2 (size : ℝ) :=
    mul_le_of_le_one_right hbase hfrac1
  have hx : ((pw.length : ℝ) * Real.logb 2 (size : ℝ)) *
      ((pw.dedup.length : ℝ) / (pw.length : ℝ)) *
      (1 - calculate_sequential_penalty pw) ≤
      (pw.length : ℝ) * Real.logb 2 (size : ℝ) :=
    calc ((pw.length : ℝ) * Real.logb 2 (size : ℝ)) *
        ((pw.dedup.length : ℝ) / (pw.length : ℝ)) *
        (1 - calculate_sequential_penalty pw) ≤
        ((pw.length : ℝ) * Real.logb 2 (size : ℝ)) *
          ((pw.dedup.length : ℝ) / (pw.length : ℝ)) * 1 :=
          mul_le_mul_of_nonneg_left h1c h1a
      _ = ((pw.length : ℝ) * Real.logb 2 (size : ℝ)) *
          ((pw.dedup.length : ℝ) / (pw.length : ℝ)) := mul_one _
      _ ≤ (pw.length : ℝ) * Real.logb 2 (size : ℝ) := h1b
  exact max_le hbase hx

/-- Witness for C8 at the concrete password "ab" and pool size 4. -/
theorem c8_witness :
    ("ab".toList ≠ []) ∧ ((0 : Nat) < 4) ∧
    (score_entropy "ab".toList 4 =
      max 0 ((("ab".toList.length : ℝ) * Real.logb 2 ((4 : ℕ) : ℝ)) *
        (("ab".toList.dedup.length : ℝ) / ("ab".toList.length : ℝ)) *
        (1 - (if 3 ≤ "ab".toList.length then
            min (0.5 : ℝ)
              ((calculate_sequential_count "ab".toList : ℝ) /
                (("ab".toList.length - 2 : ℕ) : ℝ))
          else 0))) ∧
    score_entropy "ab".toList 4 ≤
      ("ab".toList.length : ℝ) * Real.logb 2 ((4 : ℕ) : ℝ) ∧
    0 ≤ score_entropy "ab".toList 4) :=
  ⟨by decide, by decide, c8_entropy_formula "ab".toList 4 (by decide) (by decide)⟩
